import Mathlib

/-!
Verification development for the AUDIO_SEARCH_AIC_2025 speech retrieval
engine.  The Python sources are shallowly embedded: pure helpers become
Lean functions, the Elasticsearch / filesystem / embedding-model
collaborators become explicit oracles carried in environment structures,
and the stateful sync and import routines become functions from those
oracles (plus the in-memory tracker state) to their outputs and to the
list of index-mutating actions they perform.  String primitives from the
Python standard library are modelled on character lists so that every
definition evaluates by kernel reduction.
-/

/- ===================== python string / os.path helpers ===================== -/

/-- Model of os.path.join for a relative second component: a ++ "/" ++ b. -/
def pathJoin (a b : String) : String := a ++ "/" ++ b

/-- Model of os.path.basename: the part of the path after the last "/". -/
def basename (p : String) : String :=
  String.mk ((p.toList.reverse.takeWhile (fun c => c ≠ '/')).reverse)

/-- Model of fname.endswith(suffix) on Python str. -/
def str_ends_with (s suffix : String) : Bool :=
  List.isSuffixOf suffix.toList s.toList

/-- Model of Python str.strip() with no argument: whitespace removed from
both ends. -/
def py_strip (s : String) : String :=
  String.mk (((s.toList.dropWhile Char.isWhitespace).reverse.dropWhile
    Char.isWhitespace).reverse)

/-- Model of Python str.lower() on the ASCII strings the engine compares. -/
def py_lower (s : String) : String := String.mk (s.toList.map Char.toLower)

/-- Model of video_name.split(sep)[0]: the characters before the first
occurrence of the separator (the whole string when the separator is
absent). -/
def split_head (sep : Char) (s : String) : String :=
  String.mk (s.toList.takeWhile (fun c => c ≠ sep))

/-- Index of the last occurrence of a character in a character list. -/
def lastIdxOf (c : Char) (s : List Char) : Option Nat :=
  ((s.enum.filter (fun pr => pr.2 = c)).getLast?).map (fun pr => pr.1)

/-- Model of os.path.splitext (CPython genericpath._splitext): split at the
last dot of the final component, except that leading dots of the file name
do not start an extension. -/
def splitext (p : String) : String × String :=
  let cs := p.toList
  let sepIdx : Int := match lastIdxOf '/' cs with | some i => (i : Int) | none => -1
  let dotIdx : Int := match lastIdxOf '.' cs with | some i => (i : Int) | none => -1
  if dotIdx > sepIdx then
    let nameStart := (sepIdx + 1).toNat
    let d := dotIdx.toNat
    if (List.range' nameStart (d - nameStart)).any (fun i => cs.getD i '.' ≠ '.') then
      (String.mk (cs.take d), String.mk (cs.drop d))
    else (p, "")
  else (p, "")

/-- Digit-run parser used by the model of Python int(): digits with single
underscores allowed between digits, at least one digit required. -/
def pyIntDigits : List Char → Nat → Bool → Option Nat
  | [], acc, prevDigit => if prevDigit then some acc else none
  | c :: rest, acc, prevDigit =>
    if c.isDigit then pyIntDigits rest (acc * 10 + (c.toNat - 48)) true
    else if c = '_' then (if prevDigit then pyIntDigits rest acc false else none)
    else none

/-- Model of Python int(str) in base 10: surrounding whitespace stripped, an
optional sign, then a digit run (underscores permitted between digits);
none models the ValueError raised on any other input. -/
def py_int_of_string (s : String) : Option Int :=
  let cs := ((s.toList.dropWhile Char.isWhitespace).reverse.dropWhile
    Char.isWhitespace).reverse
  match cs with
  | '+' :: rest => (pyIntDigits rest 0 false).map (fun n => (n : Int))
  | '-' :: rest => (pyIntDigits rest 0 false).map (fun n => -(n : Int))
  | rest => (pyIntDigits rest 0 false).map (fun n => (n : Int))

/-- fname.endswith((".webp", ".jpg", ".png")) from list_keyframes_in_range. -/
def is_image_name (fname : String) : Bool :=
  str_ends_with fname ".webp" || str_ends_with fname ".jpg" || str_ends_with fname ".png"

/-- Boolean strict lexicographic comparison of character lists by code
point, the order Python uses on str. -/
def charListLt : List Char → List Char → Bool
  | [], [] => false
  | [], _ :: _ => true
  | _ :: _, [] => false
  | a :: as, b :: bs => if a < b then true else if b < a then false else charListLt as bs

/-- Boolean lexicographic order on strings, the comparison Python sorted()
uses on str (code-point lexicographic): a ≤ b iff not b < a. -/
def strLe (a b : String) : Bool := ! charListLt b.toList a.toList

/-- Stable insertion of an element into a list: the element goes after every
existing element that is ≤ it. -/
def insSorted (le : String → String → Bool) : String → List String → List String
  | a, [] => [a]
  | a, b :: t => if le b a then b :: insSorted le a t else a :: b :: t

/-- Model of the Python builtin sorted(...) on a list of strings: a stable
sort by code-point lexicographic order (insertion sort, chosen so the model
computes by kernel reduction). -/
def py_sorted : List String → List String
  | [] => []
  | a :: t => insSorted strLe a (py_sorted t)

/- ===================== keyframe range mapper (list_keyframes_in_range) ===================== -/

/-- The fields of the retrieval-result dict that list_keyframes_in_range
reads: entry["file"], entry["start_frame"], entry["end_frame"]. -/
structure Entry where
  file : String
  start_frame : Int
  end_frame : Int
deriving DecidableEq

/-- Filesystem oracle for the keyframe tree: os.path.exists on directories
and os.listdir (the OS enumeration, before the source applies sorted). -/
structure KfEnv where
  dirExists : String → Bool
  listdir : String → List String

/-- video_name in list_keyframes_in_range: the source file's base name with
its extension removed. -/
def kf_video_name (entry : Entry) : String := (splitext (basename entry.file)).1

/-- keyframe_folder in list_keyframes_in_range: base dir, then the part of
video_name before the first underscore (the collection folder), then
video_name itself. -/
def kf_folder (entry : Entry) (base_keyframe_dir : String) : String :=
  pathJoin (pathJoin base_keyframe_dir (split_head '_' (kf_video_name entry)))
    (kf_video_name entry)

/-- Per-file-name body of the loop in list_keyframes_in_range: the emitted
path when the image-extension check, the int() parse and the inclusive range
check all pass, none otherwise. -/
def keyframe_loop_step (entry : Entry) (keyframe_folder fname : String) : Option String :=
  if is_image_name fname then
    match py_int_of_string (splitext fname).1 with
    | some frame_num =>
      if entry.start_frame ≤ frame_num ∧ frame_num ≤ entry.end_frame then
        some (pathJoin keyframe_folder fname)
      else none
    | none => none
  else none

/-- Shallow embedding of list_keyframes_in_range (audiosearch_engine.py,
lines 26-49): derive the keyframe folder from the entry's source-file name,
return [] when it does not exist, otherwise walk the sorted listing keeping
image files whose base name parses as an integer inside the inclusive
[start_frame, end_frame] range, emitting the joined path of each. -/
def list_keyframes_in_range (entry : Entry) (base_keyframe_dir : String) (fs : KfEnv) :
    List String :=
  if fs.dirExists (kf_folder entry base_keyframe_dir) then
    (py_sorted (fs.listdir (kf_folder entry base_keyframe_dir))).filterMap
      (keyframe_loop_step entry (kf_folder entry base_keyframe_dir))
  else []

/-- The selection predicate of the spec reading of resolveFrames: recognized
image extension and an integer base name inside the inclusive range. -/
def keyframe_in_range_pred (entry : Entry) (fname : String) : Bool :=
  is_image_name fname &&
    (match py_int_of_string (splitext fname).1 with
     | some n => decide (entry.start_frame ≤ n) && decide (n ≤ entry.end_frame)
     | none => false)

/-- The spec formulation of resolveFrames: empty when the derived directory
is absent, otherwise the lexicographically sorted listing filtered by
keyframe_in_range_pred and mapped to full paths. -/
def resolveFramesSpec (entry : Entry) (base_keyframe_dir : String) (fs : KfEnv) :
    List String :=
  if fs.dirExists (kf_folder entry base_keyframe_dir) then
    ((py_sorted (fs.listdir (kf_folder entry base_keyframe_dir))).filter
      (keyframe_in_range_pred entry)).map
      (fun fname => pathJoin (kf_folder entry base_keyframe_dir) fname)
  else []

/-- Keyframe filesystem of the spec's worked example: one existing directory
kf/K01/K01_V001 holding keyframes with base names 90, 105, 130. -/
def exampleKf : KfEnv :=
  { dirExists := fun d => decide (d = "kf/K01/K01_V001")
    listdir := fun d => if d = "kf/K01/K01_V001" then ["90.jpg", "105.jpg", "130.jpg"] else [] }

/- helper lemmas -/

theorem filterMap_if_eq_filter_map {α β : Type} (p : α → Bool) (g : α → β) (l : List α) :
    l.filterMap (fun x => if p x then some (g x) else none) = (l.filter p).map g := by
  induction l with
  | nil => rfl
  | cons a t ih =>
    by_cases h : p a <;> simp [List.filterMap_cons, List.filter_cons, h, ih]

theorem keyframe_loop_step_eq (entry : Entry) (folder fname : String) :
    keyframe_loop_step entry folder fname =
      if keyframe_in_range_pred entry fname then some (pathJoin folder fname) else none := by
  unfold keyframe_loop_step keyframe_in_range_pred
  by_cases himg : is_image_name fname
  · cases hparse : py_int_of_string (splitext fname).1 with
    | none => simp [himg, hparse]
    | some n =>
      by_cases hrange : entry.start_frame ≤ n ∧ n ≤ entry.end_frame
      · simp [himg, hparse, hrange.1, hrange.2]
      · rw [Decidable.not_and_iff_or_not] at hrange
        rcases hrange with h1 | h2
        · simp [himg, hparse, h1]
        · simp [himg, hparse, h2]
  · simp [himg]

theorem charListLt_iff_lex (x y : List Char) :
    charListLt x y = true ↔ List.Lex (fun c d => c < d) x y := by
  induction x generalizing y with
  | nil =>
    cases y with
    | nil => simp only [charListLt]; constructor <;> nofun
    | cons b bs =>
      simp only [charListLt]
      exact iff_of_true trivial List.Lex.nil
  | cons a as ih =>
    cases y with
    | nil => simp only [charListLt]; constructor <;> nofun
    | cons b bs =>
      by_cases hab : a < b
      · simp only [charListLt, hab, if_true]
        exact iff_of_true trivial (List.Lex.rel hab)
      · by_cases hba : b < a
        · simp only [charListLt, hab, hba, if_false, if_true]
          refine iff_of_false (by simp) ?_
          intro h
          cases h with
          | cons h => exact lt_irrefl a hba
          | rel h => exact hab h
        · have hsame : a = b := le_antisymm (not_lt.mp hba) (not_lt.mp hab)
          subst hsame
          simp only [charListLt, lt_irrefl, if_false]
          rw [ih bs]
          constructor
          · intro h; exact List.Lex.cons h
          · intro h
            cases h with
            | cons h => exact h
            | rel h => exact absurd h (lt_irrefl a)

theorem strLe_iff (a b : String) : strLe a b = true ↔ a ≤ b := by
  rw [strLe, Bool.not_eq_true', ← Bool.not_eq_true, charListLt_iff_lex]
  have h : List.Lex (fun c d => c < d) b.toList a.toList ↔ b < a := by
    rw [String.lt_iff_toList_lt]
    exact Iff.rfl
  rw [h]
  exact not_lt

theorem insSorted_perm (a : String) (l : List String) :
    List.Perm (insSorted strLe a l) (a :: l) := by
  induction l with
  | nil => simp [insSorted]
  | cons b t ih =>
    by_cases h : strLe b a
    · simp only [insSorted, h, if_true]
      exact ((ih.cons b).trans (List.Perm.swap a b t))
    · simp [insSorted, h]

theorem py_sorted_perm (l : List String) : List.Perm (py_sorted l) l := by
  induction l with
  | nil => rfl
  | cons a t ih =>
    exact (insSorted_perm a (py_sorted t)).trans (ih.cons a)

theorem insSorted_sorted (a : String) (l : List String)
    (h : List.Pairwise (fun x y => x ≤ y) l) :
    List.Pairwise (fun x y => x ≤ y) (insSorted strLe a l) := by
  induction l with
  | nil => simp [insSorted]
  | cons b t ih =>
    by_cases hba : strLe b a
    · simp only [insSorted, hba, if_true]
      rw [List.pairwise_cons] at h ⊢
      refine ⟨?_, ih h.2⟩
      intro x hx
      have hperm := insSorted_perm a t
      have hx2 : x ∈ a :: t := hperm.mem_iff.mp hx
      rcases List.mem_cons.mp hx2 with hxa | hxt
      · rw [hxa]
        exact (strLe_iff b a).mp hba
      · exact h.1 x hxt
    · simp only [insSorted, hba, Bool.false_eq_true, if_false]
      rw [List.pairwise_cons]
      refine ⟨?_, h⟩
      intro x hx
      have hab : a ≤ b := le_of_not_le (fun hle => hba ((strLe_iff b a).mpr hle))
      rcases List.mem_cons.mp hx with hxb | hxt
      · subst hxb; exact hab
      · rw [List.pairwise_cons] at h
        exact le_trans hab (h.1 x hxt)

theorem py_sorted_sorted (l : List String) :
    List.Pairwise (fun x y => x ≤ y) (py_sorted l) := by
  induction l with
  | nil => simp [py_sorted]
  | cons a t ih => exact insSorted_sorted a (py_sorted t) ih

/-- C3: list_keyframes_in_range returns the empty sequence when the derived
keyframe directory does not exist and otherwise returns exactly the paths of
image-extension files whose base name parses as an integer in the inclusive
[start_frame, end_frame] range, taken from the lexicographically sorted
listing (py_sorted is a sorted permutation); on the worked example with
keyframes 90, 105, 130 and range [100, 120] it returns exactly the path of
105. -/
theorem list_keyframes_matches_filter_sorted_spec :
    (∀ (entry : Entry) (base : String) (fs : KfEnv),
        list_keyframes_in_range entry base fs = resolveFramesSpec entry base fs) ∧
    (∀ l : List String,
        List.Pairwise (fun x y => x ≤ y) (py_sorted l) ∧ List.Perm (py_sorted l) l) ∧
    list_keyframes_in_range ⟨"K01_V001.json", 100, 120⟩ "kf" exampleKf
      = ["kf/K01/K01_V001/105.jpg"] := by
  refine ⟨?_, fun l => ⟨py_sorted_sorted l, py_sorted_perm l⟩, by decide⟩
  intro entry base fs
  unfold list_keyframes_in_range resolveFramesSpec
  by_cases hex : fs.dirExists (kf_folder entry base)
  · rw [if_pos hex, if_pos hex]
    have hfun : keyframe_loop_step entry (kf_folder entry base) = (fun fname =>
        if keyframe_in_range_pred entry fname
        then some (pathJoin (kf_folder entry base) fname) else none) :=
      funext (fun fname => keyframe_loop_step_eq entry (kf_folder entry base) fname)
    rw [hfun, filterMap_if_eq_filter_map]
  · rw [if_neg hex, if_neg hex]

/- ===================== sync engine (SpeechRetrievalES incremental indexing) ===================== -/

/-- One parsed entry of a transcript JSON file, with the fields _index_data
reads: text, start_frame, end_frame, start_sec, end_sec.  The float second
values are modelled as rationals; no claim computes on them. -/
structure Item where
  text : String
  start_frame : Int
  end_frame : Int
  start_sec : Rat
  end_sec : Rat
deriving DecidableEq

/-- The document dict built by _index_data for one entry.  The embedding is
the value of model.encode(text).tolist() when semantic indexing is on; its
numeric components are opaque to every claim, so vector entries are
modelled as integers.  none stands for the embedding key being absent (or
null); every read of the key in the sources goes through dict.get, which
does not distinguish the two. -/
structure Doc where
  text : String
  start_frame : Int
  end_frame : Int
  start_sec : Rat
  end_sec : Rat
  file : String
  video_name : String
  L : Nat
  embedding : Option (List Int)
deriving DecidableEq

/-- The constructor flags of SpeechRetrievalES that the sync path reads. -/
structure SyncCfg where
  force_reindex : Bool
  use_semantic : Bool
deriving DecidableEq

/-- External collaborators of the sync run.  walk is the output of
os.walk(context_json_dir): the visited directories in visit order, each
with its file listing in OS enumeration order.  read_bytes models opening
a file for hashing (none = OSError).  md5_hexdigest is hashlib's digest
oracle.  parse models open + json.load of one transcript file (none = the
exception path).  encode is the sentence-transformer model.
submit_raises tells whether es.index raises for a given (file, entry
index) pair. -/
structure SyncEnv where
  walk : List (String × List String)
  read_bytes : String → Option (List Nat)
  md5_hexdigest : List Nat → String
  parse : String → Option (List Item)
  encode : String → List Int
  submit_raises : String → Nat → Bool

/-- Shallow embedding of get_file_hash (audiosearch_engine.py, lines
52-63): the md5 hex digest of the file bytes, and the empty string when
reading raises. -/
def get_file_hash (env : SyncEnv) (filepath : String) : String :=
  match env.read_bytes filepath with
  | some bs => env.md5_hexdigest bs
  | none => ""

/-- Shallow embedding of SpeechRetrievalES._should_index_file (lines
167-185): always true under force_reindex, otherwise false exactly when
the tracker holds an entry for the path equal to the current hash. -/
def should_index_file (cfg : SyncCfg) (env : SyncEnv)
    (indexed_files : String → Option String) (filepath : String) : Bool :=
  if cfg.force_reindex then true
  else
    let current_hash := get_file_hash env filepath
    match indexed_files filepath with
    | some stored_hash => decide (stored_hash ≠ current_hash)
    | none => true

/-- The file-collection loop of _index_data (lines 289-294): every file of
every walked directory whose name ends in ".json", joined to its directory,
in walk order.  No sorting is applied. -/
def scan_json_files (walk : List (String × List String)) : List String :=
  walk.flatMap (fun rf =>
    (rf.2.filter (fun file => str_ends_with file ".json")).map
      (fun file => pathJoin rf.1 file))

/-- All files of the walk in enumeration order, before the ".json" filter. -/
def walk_all_files (walk : List (String × List String)) : List String :=
  walk.flatMap (fun rf => rf.2.map (fun file => pathJoin rf.1 file))

/-- The document built for entry number idx of a dirty file (lines
331-344): the trimmed text plus the passthrough fields, and the encoded
embedding when use_semantic is set. -/
def entry_doc (cfg : SyncCfg) (env : SyncEnv) (full_path video_name : String)
    (idx : Nat) (item : Item) (text : String) : Doc :=
  { text := text
    start_frame := item.start_frame
    end_frame := item.end_frame
    start_sec := item.start_sec
    end_sec := item.end_sec
    file := full_path
    video_name := video_name
    L := idx
    embedding := if cfg.use_semantic then some (env.encode text) else none }

/-- The entry loop of _index_data for one file (lines 326-347): entries
with empty trimmed text are skipped, every other entry becomes a document
submitted with es.index.  The returned Bool is true when the loop (and so
the per-file try block) completed without es.index raising; on a raise the
documents submitted before it are returned and the flag is false. -/
def submit_entries (cfg : SyncCfg) (env : SyncEnv) (full_path video_name : String) :
    List Item → Nat → List Doc × Bool
  | [], _ => ([], true)
  | item :: rest, idx =>
    let text := py_strip item.text
    if text = "" then submit_entries cfg env full_path video_name rest (idx + 1)
    else if env.submit_raises full_path idx then ([], false)
    else
      let r := submit_entries cfg env full_path video_name rest (idx + 1)
      (entry_doc cfg env full_path video_name idx item text :: r.1, r.2)

/-- One iteration of the file loop of _index_data (lines 315-356): derive
video_name, open and parse the file (an exception skips the file), then
submit its entries.  The Bool is true when the whole per-file try block
ran to completion. -/
def process_file (cfg : SyncCfg) (env : SyncEnv) (full_path : String) : List Doc × Bool :=
  match env.parse full_path with
  | none => ([], false)
  | some data => submit_entries cfg env full_path ((splitext (basename full_path)).1) data 0

/-- Python dict assignment self.indexed_files[p] = h on the tracker map. -/
def update_tracker (t : String → Option String) (p h : String) : String → Option String :=
  fun q => if q = p then some h else t q

/-- The loop of _index_data over files_to_index: each fully processed file
gets its tracker entry set to its current hash (line 350); a file whose
try block raised is left untouched.  Returns the final tracker and the
concatenation of all submitted documents in submission order. -/
def index_loop (cfg : SyncCfg) (env : SyncEnv) :
    List String → (String → Option String) → (String → Option String) × List Doc
  | [], tracker => (tracker, [])
  | p :: rest, tracker =>
    let r := process_file cfg env p
    let tracker2 := if r.2 then update_tracker tracker p (get_file_hash env p) else tracker
    let rest_r := index_loop cfg env rest tracker2
    (rest_r.1, r.1 ++ rest_r.2)

/-- Shallow embedding of SpeechRetrievalES._index_data (lines 282-366):
collect the .json files of the walk, keep the ones _should_index_file
marks dirty, and run the indexing loop over them starting from the loaded
tracker.  The result is the tracker that _save_indexed_files persists and
the list of documents submitted to the index. -/
def index_data (cfg : SyncCfg) (env : SyncEnv) (tracker : String → Option String) :
    (String → Option String) × List Doc :=
  let all_files := scan_json_files env.walk
  let files_to_index := all_files.filter (should_index_file cfg env tracker)
  index_loop cfg env files_to_index tracker

/-- The dense_vector field of the mapping created by _setup_index (lines
245-269): dims fixed at 768, cosine similarity. -/
structure DenseVectorMapping where
  field_type : String
  dims : Nat
  indexed : Bool
  similarity : String
deriving DecidableEq

/-- The embedding entry of the index mapping in _setup_index. -/
def setup_index_embedding_mapping : DenseVectorMapping :=
  { field_type := "dense_vector", dims := 768, indexed := true, similarity := "cosine" }

/- helper lemmas for the sync loop -/

theorem submit_entries_completes (cfg : SyncCfg) (env : SyncEnv)
    (hraise : ∀ p i, env.submit_raises p i = false) (full_path video_name : String) :
    ∀ (items : List Item) (idx : Nat),
      (submit_entries cfg env full_path video_name items idx).2 = true := by
  intro items
  induction items with
  | nil => intro idx; rfl
  | cons item rest ih =>
    intro idx
    by_cases htext : py_strip item.text = ""
    · simp [submit_entries, htext, ih]
    · simp [submit_entries, htext, hraise, ih]

theorem process_file_parse_none (cfg : SyncCfg) (env : SyncEnv) (p : String)
    (h : env.parse p = none) : process_file cfg env p = ([], false) := by
  simp [process_file, h]

theorem process_file_completes (cfg : SyncCfg) (env : SyncEnv) (p : String)
    (hraise : ∀ q i, env.submit_raises q i = false)
    (data : List Item) (h : env.parse p = some data) :
    (process_file cfg env p).2 = true := by
  simp [process_file, h, submit_entries_completes cfg env hraise]

theorem index_loop_tracker_stable (cfg : SyncCfg) (env : SyncEnv) (q : String) :
    ∀ (files : List String) (tracker : String → Option String),
      (∀ p ∈ files, p = q → (process_file cfg env p).2 = false) →
      (index_loop cfg env files tracker).1 q = tracker q := by
  intro files
  induction files with
  | nil => intro tracker _; rfl
  | cons p rest ih =>
    intro tracker h
    simp only [index_loop]
    rw [ih _ (fun p2 hp2 => h p2 (List.mem_cons_of_mem p hp2))]
    by_cases hok : (process_file cfg env p).2 = true
    · simp only [hok, if_true]
      have hpq : ¬ q = p := by
        intro hqp
        have := h p (List.mem_cons_self p rest) hqp.symm
        rw [this] at hok
        exact absurd hok (by simp)
      simp [update_tracker, hpq]
    · simp [hok]

theorem index_loop_tracker_updated (cfg : SyncCfg) (env : SyncEnv) (q : String)
    (hq : (process_file cfg env q).2 = true) :
    ∀ (files : List String) (tracker : String → Option String), q ∈ files →
      (index_loop cfg env files tracker).1 q = some (get_file_hash env q) := by
  intro files
  induction files with
  | nil => intro tracker h; exact absurd h (List.not_mem_nil q)
  | cons p rest ih =>
    intro tracker hmem
    simp only [index_loop]
    by_cases hqr : q ∈ rest
    · exact ih _ hqr
    · have hqp : q = p := by
        rcases List.mem_cons.mp hmem with h | h
        · exact h
        · exact absurd h hqr
      subst hqp
      rw [index_loop_tracker_stable cfg env q rest _
        (fun p2 hp2 hp2q => absurd (hp2q ▸ hp2) hqr)]
      simp [hq, update_tracker]

theorem index_loop_no_docs (cfg : SyncCfg) (env : SyncEnv) :
    ∀ (files : List String) (tracker : String → Option String),
      (∀ p ∈ files, (process_file cfg env p).1 = []) →
      (index_loop cfg env files tracker).2 = [] := by
  intro files
  induction files with
  | nil => intro tracker _; rfl
  | cons p rest ih =>
    intro tracker h
    simp only [index_loop]
    rw [h p (List.mem_cons_self p rest),
      ih _ (fun p2 hp2 => h p2 (List.mem_cons_of_mem p hp2))]
    rfl

theorem should_index_file_congr (cfg : SyncCfg) (env : SyncEnv)
    (tr1 tr2 : String → Option String) (p : String) (h : tr1 p = tr2 p) :
    should_index_file cfg env tr1 p = should_index_file cfg env tr2 p := by
  simp only [should_index_file, h]

/-- C1: a file found by the sync run is re-indexed iff the force flag is
set, or the fingerprint store has no entry for the file's path, or the
stored fingerprint differs from the current content fingerprint; and
under the default force-off configuration, with no es.index failures,
running _index_data twice (the second run starting from the tracker the
first run produced) submits zero documents on the second run. -/
theorem sync_dirty_iff_and_second_run_empty (cfg : SyncCfg) (env : SyncEnv) :
    (∀ (tracker : String → Option String) (p : String),
        should_index_file cfg env tracker p = true ↔
          (cfg.force_reindex = true ∨ tracker p = none ∨
            ∃ s, tracker p = some s ∧ s ≠ get_file_hash env p)) ∧
    (cfg.force_reindex = false →
      (∀ p i, env.submit_raises p i = false) →
      ∀ tracker0 : String → Option String,
        (index_data cfg env ((index_data cfg env tracker0).1)).2 = []) := by
  constructor
  · intro tracker p
    unfold should_index_file
    cases hf : cfg.force_reindex with
    | true => simp
    | false =>
      cases ht : tracker p with
      | none => simp
      | some s => simp
  · intro hforce hraise tracker0
    simp only [index_data]
    apply index_loop_no_docs
    intro p hp
    have hmem := List.mem_filter.mp hp
    obtain ⟨hpall, hpdirty⟩ := hmem
    by_cases hparse : env.parse p = none
    · rw [process_file_parse_none cfg env p hparse]
    · exfalso
      obtain ⟨data, hdata⟩ := Option.ne_none_iff_exists.mp hparse
      have hok : (process_file cfg env p).2 = true :=
        process_file_completes cfg env p hraise data hdata.symm
      by_cases hp1 : p ∈ (scan_json_files env.walk).filter
          (should_index_file cfg env tracker0)
      · have hupd : (index_loop cfg env
            ((scan_json_files env.walk).filter (should_index_file cfg env tracker0))
            tracker0).1 p = some (get_file_hash env p) :=
          index_loop_tracker_updated cfg env p hok _ tracker0 hp1
        rw [should_index_file, if_neg (by simp [hforce]), hupd] at hpdirty
        simp at hpdirty
      · have hstable : (index_loop cfg env
            ((scan_json_files env.walk).filter (should_index_file cfg env tracker0))
            tracker0).1 p = tracker0 p :=
          index_loop_tracker_stable cfg env p _ tracker0
            (fun p2 hp2 hp2q => absurd (hp2q ▸ hp2) hp1)
        rw [should_index_file_congr cfg env _ tracker0 p hstable] at hpdirty
        exact hp1 (List.mem_filter.mpr ⟨hpall, hpdirty⟩)

/-- Concrete sync configuration for the C1 witness: force off, semantic
off. -/
def sync_cfg_w : SyncCfg := { force_reindex := false, use_semantic := false }

/-- Concrete sync environment for the C1 witness: one directory holding
one transcript file with one non-empty entry, readable bytes, and no
es.index failures. -/
def sync_env_w : SyncEnv :=
  { walk := [("r", ["a.json"])]
    read_bytes := fun _ => some [1, 2, 3]
    md5_hexdigest := fun _ => "d41d8cd98f00b204e9800998ecf8427e"
    parse := fun _ => some [{ text := "hello", start_frame := 0, end_frame := 10,
                              start_sec := 0, end_sec := 1 }]
    encode := fun _ => []
    submit_raises := fun _ _ => false }

/-- Witness for C1: on the concrete environment the second sync run over
the unchanged tree and the tracker saved by the first run submits no
documents. -/
theorem sync_dirty_iff_and_second_run_empty_witness :
    (index_data sync_cfg_w sync_env_w
      ((index_data sync_cfg_w sync_env_w (fun _ => none)).1)).2 = [] :=
  (sync_dirty_iff_and_second_run_empty sync_cfg_w sync_env_w).2 rfl
    (fun _ _ => rfl) (fun _ => none)

/- ===================== C2: sentinel fingerprint on read failure ===================== -/

/-- Sync environment where reading the transcript file for hashing fails:
get_file_hash takes its exception path and returns the sentinel "". -/
def read_fail_env : SyncEnv :=
  { walk := [("r", ["f.json"])]
    read_bytes := fun _ => none
    md5_hexdigest := fun _ => ""
    parse := fun _ => none
    encode := fun _ => []
    submit_raises := fun _ _ => false }

/-- Tracker holding the sentinel "" for the file, the state _index_data
leaves behind when the post-indexing re-hash at line 350 itself fails. -/
def sentinel_tracker : String → Option String :=
  fun p => if p = "r/f.json" then some "" else none

/-- Tracker holding a genuine md5 hex digest for the file. -/
def real_hash_tracker : String → Option String :=
  fun p => if p = "r/f.json" then some "d41d8cd98f00b204e9800998ecf8427e" else none

/-- C2 counterexample: with force off, a stored fingerprint equal to the
sentinel "" and a failing read, _should_index_file returns false — the
file is skipped, not re-indexed, so the sentinel is not distinct from
every storable fingerprint and does not force re-indexing. -/
theorem sentinel_fingerprint_can_match_stored :
    get_file_hash read_fail_env "r/f.json" = "" ∧
    should_index_file { force_reindex := false, use_semantic := true }
      read_fail_env sentinel_tracker "r/f.json" = false := by
  constructor <;> rfl

/-- C2 amended: on read failure get_file_hash returns the sentinel "",
which differs from every nonempty stored fingerprint (in particular from
every md5 hex digest recorded by a successful hash), so a file whose
stored fingerprint is nonempty, and a file with no stored entry, are both
classified dirty when the read fails; only a stored sentinel makes the
dirty check skip the file. -/
theorem read_failure_forces_reindex_unless_sentinel_stored (env : SyncEnv) (p : String)
    (hread : env.read_bytes p = none) :
    get_file_hash env p = "" ∧
    (∀ (cfg : SyncCfg) (tracker : String → Option String) (s : String),
        tracker p = some s → s ≠ "" → should_index_file cfg env tracker p = true) ∧
    (∀ (cfg : SyncCfg) (tracker : String → Option String),
        tracker p = none → should_index_file cfg env tracker p = true) := by
  have hh : get_file_hash env p = "" := by simp [get_file_hash, hread]
  refine ⟨hh, ?_, ?_⟩
  · intro cfg tracker s hs hne
    unfold should_index_file
    cases hf : cfg.force_reindex with
    | true => simp
    | false => simp [hs, hh, hne]
  · intro cfg tracker hs
    unfold should_index_file
    cases hf : cfg.force_reindex with
    | true => simp
    | false => simp [hs]

/-- Witness for the amended C2 theorem at a concrete input: a failing read
with a genuine digest stored marks the file dirty. -/
theorem read_failure_forces_reindex_witness :
    get_file_hash read_fail_env "r/f.json" = "" ∧
    should_index_file { force_reindex := false, use_semantic := true }
      read_fail_env real_hash_tracker "r/f.json" = true := by
  have h := read_failure_forces_reindex_unless_sentinel_stored read_fail_env "r/f.json" rfl
  exact ⟨h.1, h.2.1 { force_reindex := false, use_semantic := true }
    real_hash_tracker "d41d8cd98f00b204e9800998ecf8427e" rfl (by decide)⟩

/- ===================== C7: no pre-submission dimension validation ===================== -/

/-- Sync environment whose embedding model returns a 5-dimensional vector,
against the 768-dimensional schema of _setup_index. -/
def dim_mismatch_env : SyncEnv :=
  { walk := [("r", ["v.json"])]
    read_bytes := fun _ => some [0]
    md5_hexdigest := fun _ => "h"
    parse := fun _ => some [{ text := "hello", start_frame := 0, end_frame := 1,
                              start_sec := 0, end_sec := 1 }]
    encode := fun _ => [1, 2, 3, 4, 5]
    submit_raises := fun _ _ => false }

/-- Sync configuration with semantic indexing on. -/
def dim_cfg : SyncCfg := { force_reindex := false, use_semantic := true }

/-- C7 counterexample: a document whose embedding has 5 components, not
the 768 fixed by the schema, is nevertheless submitted by _index_data —
no validation check runs before submission, so the write does not fail
client-side on a dimension mismatch. -/
theorem mismatched_dimension_doc_submitted :
    ((index_data dim_cfg dim_mismatch_env (fun _ => none)).2.map
      (fun d => d.embedding.map List.length)) = [some 5] ∧
    setup_index_embedding_mapping.dims = 768 ∧ (5 : Nat) ≠ 768 := by
  refine ⟨by decide, rfl, by decide⟩

theorem submit_entries_embedding (cfg : SyncCfg) (env : SyncEnv)
    (full_path video_name : String) (hsem : cfg.use_semantic = true) :
    ∀ (items : List Item) (idx : Nat) (d : Doc),
      d ∈ (submit_entries cfg env full_path video_name items idx).1 →
      d.embedding = some (env.encode d.text) := by
  intro items
  induction items with
  | nil => intro idx d h; simp [submit_entries] at h
  | cons item rest ih =>
    intro idx d h
    by_cases htext : py_strip item.text = ""
    · rw [submit_entries] at h
      simp only [htext, if_pos rfl] at h
      exact ih _ d h
    · by_cases hraise : env.submit_raises full_path idx
      · rw [submit_entries] at h
        simp [htext, hraise] at h
      · rw [submit_entries] at h
        simp only [htext, hraise, if_neg, Bool.false_eq_true, if_false,
          List.mem_cons] at h
        rcases h with h | h
        · subst h
          simp [entry_doc, hsem]
        · exact ih _ d h

theorem process_file_embedding (cfg : SyncCfg) (env : SyncEnv) (p : String)
    (hsem : cfg.use_semantic = true) (d : Doc) (h : d ∈ (process_file cfg env p).1) :
    d.embedding = some (env.encode d.text) := by
  unfold process_file at h
  cases hparse : env.parse p with
  | none => rw [hparse] at h; simp at h
  | some data =>
    rw [hparse] at h
    exact submit_entries_embedding cfg env p _ hsem data 0 d h

theorem index_loop_embedding (cfg : SyncCfg) (env : SyncEnv)
    (hsem : cfg.use_semantic = true) :
    ∀ (files : List String) (tracker : String → Option String) (d : Doc),
      d ∈ (index_loop cfg env files tracker).2 →
      d.embedding = some (env.encode d.text) := by
  intro files
  induction files with
  | nil => intro tracker d h; simp [index_loop] at h
  | cons p rest ih =>
    intro tracker d h
    simp only [index_loop, List.mem_append] at h
    rcases h with h | h
    · exact process_file_embedding cfg env p hsem d h
    · exact ih _ d h

/-- C7 amended: the schema created by _setup_index fixes the embedding
dimension at 768, but _index_data performs no dimensionality validation
before submission — every submitted document carries exactly the vector
the model produced for its text, whatever its length, and any rejection
of a mismatched vector is left to the index service at write time. -/
theorem submitted_embedding_not_validated :
    setup_index_embedding_mapping.dims = 768 ∧
    ∀ (cfg : SyncCfg) (env : SyncEnv) (tracker : String → Option String) (d : Doc),
      cfg.use_semantic = true → d ∈ (index_data cfg env tracker).2 →
      d.embedding = some (env.encode d.text) := by
  refine ⟨rfl, ?_⟩
  intro cfg env tracker d hsem h
  simp only [index_data] at h
  exact index_loop_embedding cfg env hsem _ tracker d h

/-- The document _index_data submits in the dim_mismatch_env run. -/
def dim_doc_w : Doc :=
  { text := "hello", start_frame := 0, end_frame := 1, start_sec := 0, end_sec := 1,
    file := "r/v.json", video_name := "v", L := 0, embedding := some [1, 2, 3, 4, 5] }

/-- Witness for the amended C7 theorem: the concrete submitted document
carries the raw 5-dimensional model vector. -/
theorem submitted_embedding_not_validated_witness :
    dim_doc_w.embedding = some (dim_mismatch_env.encode dim_doc_w.text) :=
  (submitted_embedding_not_validated).2 dim_cfg dim_mismatch_env (fun _ => none)
    dim_doc_w rfl (by decide)

/- ===================== C9: scan order of the transcript walk ===================== -/

/-- A legal os.walk output whose file enumeration is not lexicographic. -/
def walk_unsorted : List (String × List String) := [("r", ["b.json", "a.json"])]

/-- C9 counterexample: _index_data applies no sort to the walk, so with an
OS enumeration that lists b.json before a.json the scanned sequence is not
in lexicographic order by full path. -/
theorem scan_order_not_lexicographic :
    scan_json_files walk_unsorted = ["r/b.json", "r/a.json"] ∧
    ¬ List.Pairwise (fun a b : String => a ≤ b) (scan_json_files walk_unsorted) := by
  refine ⟨rfl, ?_⟩
  intro h
  rw [show scan_json_files walk_unsorted = ["r/b.json", "r/a.json"] from rfl,
    List.pairwise_cons] at h
  have hle := h.1 "r/a.json" (by simp)
  have hb : strLe "r/b.json" "r/a.json" = true := (strLe_iff _ _).mpr hle
  exact absurd hb (by decide)

/-- C9 amended: the scan yields exactly the files of the walked tree whose
names end in ".json", joined to their directory, in the order of the OS
directory walk; no sorting is applied, so the order is lexicographic only
when the OS enumeration already is. -/
theorem scan_yields_exactly_json_files (walk : List (String × List String)) (p : String) :
    p ∈ scan_json_files walk ↔
      ∃ rf ∈ walk, ∃ f ∈ rf.2, str_ends_with f ".json" = true ∧ p = pathJoin rf.1 f := by
  simp only [scan_json_files, List.mem_flatMap, List.mem_map, List.mem_filter]
  constructor
  · rintro ⟨rf, hrf, f, ⟨hf, hjson⟩, hp⟩
    exact ⟨rf, hrf, f, hf, hjson, hp.symm⟩
  · rintro ⟨rf, hrf, f, hf, hjson, hp⟩
    exact ⟨rf, hrf, f, ⟨hf, hjson⟩, hp.symm⟩

/- ===================== C8: tracker persistence is not atomic ===================== -/

/-- The successive on-disk contents of the tracker file during
_save_indexed_files (lines 156-165): the old content, then the empty file
produced by open(path, "w") truncating it, then each prefix of the new
serialized mapping as json.dump writes it out. -/
def save_tracker_disk_states (old_content new_content : String) : List String :=
  old_content :: (List.range (new_content.length + 1)).map
    (fun i => String.mk (new_content.toList.take i))

/-- The atomicity contract claimed for save: every state an interruption
can leave on disk is the complete old file or the complete new one. -/
def crash_atomic (old_content new_content : String) : Prop :=
  ∀ s ∈ save_tracker_disk_states old_content new_content,
    s = old_content ∨ s = new_content

/-- C8 counterexample: with a nonempty old tracker and a nonempty new
serialization, the truncated empty state violates old-or-new atomicity:
_save_indexed_files writes in place, with no temp-file-then-rename. -/
theorem save_tracker_not_atomic_example : ¬ crash_atomic "OLD" "NEW" := by
  unfold crash_atomic
  decide

/-- C8 amended: _save_indexed_files opens the tracker with mode "w", which
truncates in place; the empty file is always among the intermediate
on-disk states, so whenever the old and the new contents are nonempty an
interruption mid-write can leave a file that is neither — no
write-to-temp-then-rename protocol is used. -/
theorem save_tracker_truncation_state (old_content new_content : String)
    (hold : old_content ≠ "") (hnew : new_content ≠ "") :
    "" ∈ save_tracker_disk_states old_content new_content ∧
    ¬ crash_atomic old_content new_content := by
  have hmem : "" ∈ save_tracker_disk_states old_content new_content := by
    unfold save_tracker_disk_states
    apply List.mem_cons_of_mem
    apply List.mem_map.mpr
    exact ⟨0, by simp, by simp⟩
  refine ⟨hmem, fun h => ?_⟩
  rcases h "" hmem with h1 | h1
  · exact hold h1.symm
  · exact hnew h1.symm

/-- Witness for the amended C8 theorem at concrete contents. -/
theorem save_tracker_truncation_state_witness :
    "" ∈ save_tracker_disk_states "OLD" "NEW" ∧ ¬ crash_atomic "OLD" "NEW" :=
  save_tracker_truncation_state "OLD" "NEW" (by decide) (by decide)

/- ===================== portability codec: export (export_index.py) ===================== -/

/-- The per-document transform of the export loop (lines 96-104): when the
embedding key is present it is set to null; exported documents thus never
carry a vector. -/
def export_doc (doc : Doc) : Doc :=
  match doc.embedding with
  | some _ => { doc with embedding := none }
  | none => doc

/-- The scroll loop of export_index_to_files (lines 78-117) viewed on the
stream of documents the scroll cursor serves, for a page size the index
service accepts (a positive one): the initial search returns the first
batch_size hits and each scroll call the next ones; the loop body runs
while the current hit list is non-empty.  A size-0 request never reaches
this loop, because Elasticsearch rejects size = 0 in a scroll context at
the initial search — export_index_to_files models that rejection before
consulting this stream. -/
def scroll_chunks {α : Type} (batch_size : Nat) (docs : List α) : List (List α) :=
  if h : (docs.take batch_size).isEmpty then []
  else docs.take batch_size :: scroll_chunks batch_size (docs.drop batch_size)
termination_by docs.length
decreasing_by
  rw [List.isEmpty_iff] at h
  have hne : docs ≠ [] := by
    intro he
    exact h (by simp [he])
  have hbs : batch_size ≠ 0 := by
    intro he
    exact h (by simp [he])
  simp only [List.length_drop]
  have hpos : 0 < docs.length := List.length_pos.mpr hne
  omega

theorem scroll_chunks_eq_nil {α : Type} (batch_size : Nat) (docs : List α)
    (h : docs.take batch_size = []) : scroll_chunks batch_size docs = [] := by
  rw [scroll_chunks]
  simp [h]

theorem scroll_chunks_eq_cons {α : Type} (batch_size : Nat) (docs : List α)
    (h : docs.take batch_size ≠ []) :
    scroll_chunks batch_size docs =
      docs.take batch_size :: scroll_chunks batch_size (docs.drop batch_size) := by
  rw [scroll_chunks]
  simp [h]

/-- The metadata record written at the end of export_index_to_files (lines
125-131); total_documents is the es.count taken before the scroll starts,
which under no concurrent writes equals the length of the streamed
document list. -/
structure ExportMeta where
  index_name : String
  total_documents : Nat
  total_batches : Nat
  batch_size : Nat
deriving DecidableEq

/-- Shallow embedding of export_index_to_files (export_index.py, lines
12-147) on the document stream.  Elasticsearch rejects size = 0 in a
scroll context, so with batch_size = 0 the initial es.search (line 78)
raises, the unhandled exception aborts the run, and no batch file and no
metadata are written: the function returns none.  For a positive
batch_size it returns the written batch files in order, each the
embedding-stripped hit list of one scroll step, plus the metadata record
(total_documents is the es.count taken before the scroll, equal to the
stream length when no concurrent writes occur). -/
def export_index_to_files (index_name : String) (docs : List Doc) (batch_size : Nat) :
    Option (List (List Doc) × ExportMeta) :=
  if batch_size = 0 then none
  else
    let total_docs := docs.length
    let batches := (scroll_chunks batch_size docs).map (fun hits => hits.map export_doc)
    some (batches,
      { index_name := index_name
        total_documents := total_docs
        total_batches := batches.length
        batch_size := batch_size })

theorem export_doc_embedding (d : Doc) : (export_doc d).embedding = none := by
  unfold export_doc
  cases h : d.embedding with
  | none => exact h
  | some v => rfl

theorem scroll_chunks_sum {α : Type} (batch_size : Nat) (hbs : 0 < batch_size) :
    ∀ (n : Nat) (docs : List α), docs.length ≤ n →
      ((scroll_chunks batch_size docs).map List.length).sum = docs.length := by
  intro n
  induction n with
  | zero =>
    intro docs hlen
    have hnil : docs = [] := List.length_eq_zero.mp (Nat.le_zero.mp hlen)
    subst hnil
    rw [scroll_chunks_eq_nil batch_size _ (by simp)]
    rfl
  | succ n ih =>
    intro docs hlen
    by_cases h : docs.take batch_size = []
    · rw [scroll_chunks_eq_nil batch_size _ h]
      cases docs with
      | nil => rfl
      | cons a t =>
        exfalso
        cases batch_size with
        | zero => exact absurd hbs (by simp)
        | succ m => simp [List.take_succ_cons] at h
    · rw [scroll_chunks_eq_cons batch_size _ h]
      have hne : docs ≠ [] := by intro he; exact h (by simp [he])
      have hpos : 0 < docs.length := List.length_pos.mpr hne
      have hd : (docs.drop batch_size).length ≤ n := by
        simp only [List.length_drop]
        omega
      simp only [List.map_cons, List.sum_cons]
      rw [ih _ hd, List.length_take, List.length_drop]
      omega

theorem scroll_chunks_count {α : Type} (batch_size : Nat) (hbs : 0 < batch_size) :
    ∀ (n : Nat) (docs : List α), docs.length ≤ n →
      (scroll_chunks batch_size docs).length =
        (docs.length + batch_size - 1) / batch_size := by
  intro n
  induction n with
  | zero =>
    intro docs hlen
    have hnil : docs = [] := List.length_eq_zero.mp (Nat.le_zero.mp hlen)
    subst hnil
    rw [scroll_chunks_eq_nil batch_size _ (by simp)]
    simp only [List.length_nil, Nat.zero_add]
    rw [Nat.div_eq_of_lt (by omega)]
  | succ n ih =>
    intro docs hlen
    by_cases h : docs.take batch_size = []
    · rw [scroll_chunks_eq_nil batch_size _ h]
      cases docs with
      | nil =>
        simp only [List.length_nil, Nat.zero_add]
        rw [Nat.div_eq_of_lt (by omega)]
      | cons a t =>
        exfalso
        cases batch_size with
        | zero => exact absurd hbs (by simp)
        | succ m => simp [List.take_succ_cons] at h
    · rw [scroll_chunks_eq_cons batch_size _ h]
      have hne : docs ≠ [] := by intro he; exact h (by simp [he])
      have hpos : 0 < docs.length := List.length_pos.mpr hne
      have hd : (docs.drop batch_size).length ≤ n := by
        simp only [List.length_drop]
        omega
      simp only [List.length_cons]
      rw [ih _ hd, List.length_drop]
      by_cases hcase : batch_size ≤ docs.length
      · have e1 : docs.length - batch_size + batch_size - 1 = docs.length - 1 := by omega
        have e2 : docs.length + batch_size - 1 = (docs.length - 1) + batch_size := by
          omega
        rw [e1, e2, Nat.add_div_right _ hbs]
      · have e1 : docs.length - batch_size = 0 := by omega
        rw [e1]
        rw [Nat.div_eq_of_lt (by omega)]
        have e2 : (docs.length + batch_size - 1) / batch_size = 1 := by
          apply Nat.div_eq_of_lt_le <;> omega
        omega

/-- A document with no embedding field, as indexed with use_semantic off. -/
def export_doc_w : Doc :=
  { text := "t", start_frame := 0, end_frame := 0, start_sec := 0, end_sec := 0,
    file := "f", video_name := "v", L := 0, embedding := none }

/-- C4: for every export run over an index receiving no concurrent
writes, the written ExportMetadata satisfies total_documents = sum of the
sizes of the written batch files and total_batches = number of batch
files, every exported document's embedding holds no vector, and a run
over 2500 documents with batchSize = 1000 yields exactly 3 batch files
with total_documents = 2500 and total_batches = 3.  A batch_size = 0
request is rejected by the index service at the initial search, before
any artifact is written, so every run that writes metadata is covered by
the invariants. -/
theorem export_metadata_invariants (index_name : String) (docs : List Doc)
    (batch_size : Nat) :
    (export_index_to_files index_name docs 0 = none) ∧
    ∀ (batches : List (List Doc)) (md : ExportMeta),
      export_index_to_files index_name docs batch_size = some (batches, md) →
      ((batches.map List.length).sum = md.total_documents) ∧
      (md.total_batches = batches.length) ∧
      (∀ b ∈ batches, ∀ d ∈ b, d.embedding = none) ∧
      (docs.length = 2500 → batch_size = 1000 →
        batches.length = 3 ∧ md.total_documents = 2500 ∧ md.total_batches = 3) := by
  constructor
  · simp [export_index_to_files]
  · intro batches md h
    by_cases hbs : batch_size = 0
    · rw [export_index_to_files, if_pos hbs] at h
      exact absurd h (by simp)
    · have hpos : 0 < batch_size := Nat.pos_of_ne_zero hbs
      rw [export_index_to_files, if_neg hbs, Option.some_inj, Prod.mk.injEq] at h
      obtain ⟨hB, hM⟩ := h
      subst hB
      subst hM
      refine ⟨?_, rfl, ?_, ?_⟩
      · show (((scroll_chunks batch_size docs).map
            (fun hits => hits.map export_doc)).map List.length).sum = docs.length
        rw [List.map_map]
        have hcomp : (List.length ∘ fun hits : List Doc => hits.map export_doc) =
            List.length := by
          funext l
          simp
        rw [hcomp]
        exact scroll_chunks_sum batch_size hpos docs.length docs le_rfl
      · intro b hb d hd
        obtain ⟨hits, _, hb2⟩ := List.mem_map.mp hb
        subst hb2
        obtain ⟨d0, _, hd2⟩ := List.mem_map.mp hd
        subst hd2
        exact export_doc_embedding d0
      · intro h2500 hbs1000
        subst hbs1000
        have hcount : (scroll_chunks 1000 docs).length = 3 := by
          rw [scroll_chunks_count 1000 (by decide) docs.length docs le_rfl, h2500]
        refine ⟨?_, h2500, ?_⟩
        · rw [List.length_map]
          exact hcount
        · show ((scroll_chunks 1000 docs).map
            (fun hits => hits.map export_doc)).length = 3
          rw [List.length_map]
          exact hcount

/-- The 2500-document index of the worked example, indexed with
use_semantic off (no embedding fields). -/
def export_docs_w : List Doc := List.replicate 2500 export_doc_w

/-- The three batch files the worked-example run writes: 1000, 1000 and
500 documents. -/
def export_batches_w : List (List Doc) :=
  [List.replicate 1000 export_doc_w, List.replicate 1000 export_doc_w,
   List.replicate 500 export_doc_w]

/-- The metadata record the worked-example run writes. -/
def export_md_w : ExportMeta :=
  { index_name := "speech_index", total_documents := 2500, total_batches := 3,
    batch_size := 1000 }

theorem scroll_chunks_export_docs_w :
    scroll_chunks 1000 export_docs_w =
      [List.replicate 1000 export_doc_w, List.replicate 1000 export_doc_w,
       List.replicate 500 export_doc_w] := by
  have hne1000 : (List.replicate 1000 export_doc_w) ≠ ([] : List Doc) := by
    intro hc
    have hlen := congrArg List.length hc
    rw [List.length_replicate, List.length_nil] at hlen
    exact absurd hlen (by norm_num)
  have hne500 : (List.replicate 500 export_doc_w) ≠ ([] : List Doc) := by
    intro hc
    have hlen := congrArg List.length hc
    rw [List.length_replicate, List.length_nil] at hlen
    exact absurd hlen (by norm_num)
  have e1 : (List.replicate 2500 export_doc_w).take 1000 =
      List.replicate 1000 export_doc_w := by
    rw [List.take_replicate]
    norm_num
  have e2 : (List.replicate 2500 export_doc_w).drop 1000 =
      List.replicate 1500 export_doc_w := by
    rw [List.drop_replicate]
  have e3 : (List.replicate 1500 export_doc_w).take 1000 =
      List.replicate 1000 export_doc_w := by
    rw [List.take_replicate]
    norm_num
  have e4 : (List.replicate 1500 export_doc_w).drop 1000 =
      List.replicate 500 export_doc_w := by
    rw [List.drop_replicate]
  have e5 : (List.replicate 500 export_doc_w).take 1000 =
      List.replicate 500 export_doc_w := by
    rw [List.take_replicate]
    norm_num
  have e6 : (List.replicate 500 export_doc_w).drop 1000 = ([] : List Doc) := by
    rw [List.drop_replicate]
    norm_num
  unfold export_docs_w
  rw [scroll_chunks_eq_cons 1000 _ (by rw [e1]; exact hne1000), e1, e2]
  rw [scroll_chunks_eq_cons 1000 _ (by rw [e3]; exact hne1000), e3, e4]
  rw [scroll_chunks_eq_cons 1000 _ (by rw [e5]; exact hne500), e5, e6]
  rw [scroll_chunks_eq_nil 1000 _ (by simp)]

theorem export_run_w_eq :
    export_index_to_files "speech_index" export_docs_w 1000 =
      some (export_batches_w, export_md_w) := by
  have hed : export_doc export_doc_w = export_doc_w := rfl
  have hmap : (scroll_chunks 1000 export_docs_w).map
      (fun hits => hits.map export_doc) = export_batches_w := by
    rw [scroll_chunks_export_docs_w]
    simp only [List.map_cons, List.map_nil, List.map_replicate, hed]
    rfl
  have hlen : export_docs_w.length = 2500 := by
    unfold export_docs_w
    exact List.length_replicate 2500 export_doc_w
  simp only [export_index_to_files]
  rw [if_neg (by norm_num), hmap, hlen]
  rfl

/-- Witness for C4 at the worked example: the size-0 request writes
nothing, and the 2500-document run with batch size 1000 writes exactly
the three batch files whose sizes sum to the recorded total of 2500, with
total_batches = 3. -/
theorem export_metadata_invariants_witness :
    export_index_to_files "speech_index" export_docs_w 0 = none ∧
    (export_batches_w.map List.length).sum = export_md_w.total_documents ∧
    export_md_w.total_batches = export_batches_w.length ∧
    export_batches_w.length = 3 ∧ export_md_w.total_documents = 2500 ∧
    export_md_w.total_batches = 3 := by
  have h := export_metadata_invariants "speech_index" export_docs_w 1000
  have h2 := h.2 export_batches_w export_md_w export_run_w_eq
  have hlen : export_docs_w.length = 2500 := by
    unfold export_docs_w
    exact List.length_replicate 2500 export_doc_w
  have h3 := h2.2.2.2 hlen rfl
  exact ⟨h.1, h2.1, h2.2.1, h3.1, h3.2.1, h3.2.2⟩

/- ===================== portability codec: import (import_index.py) ===================== -/

/-- The metadata fields import_index_from_files reads (lines 65-70). -/
structure ImportMeta where
  index_name : String
  total_documents : Nat
  total_batches : Nat
deriving DecidableEq

/-- The index-mutating Elasticsearch calls the import run can issue. -/
inductive EsAction where
  | delete_index (name : String)
  | create_index (name : String)
  | bulk_submit (name : String) (docs : List Doc)
  | refresh (name : String)
deriving DecidableEq

/-- External collaborators and console input of one import run:
input_dir_exists and metadata/mapping availability model the filesystem
checks, ping_ok the cluster liveness probe, index_exists the
es.indices.exists call, answer the interactive input() reply to the
overwrite prompt, batch_file the per-batch JSON files (none = file
missing, which the loop skips), and encode the embedding model. -/
structure ImportEnv where
  input_dir_exists : Bool
  ping_ok : Bool
  metadata : Option ImportMeta
  mapping_ok : Bool
  index_exists : Bool
  answer : String
  batch_file : Nat → Option (List Doc)
  regenerate_embeddings : Bool
  encode : String → List Int

/-- The per-document embedding regeneration of the import loop (lines
127-132): only when regeneration is requested (the model is loaded iff it
is), the document's embedding is absent or null, and its text is
non-empty. -/
def regenerate_doc (env : ImportEnv) (doc : Doc) : Doc :=
  if env.regenerate_embeddings ∧ doc.embedding = none then
    (if doc.text ≠ "" then { doc with embedding := some (env.encode doc.text) } else doc)
  else doc

/-- Shallow embedding of import_index_from_files (import_index.py, lines
15-178) as the sequence of index-mutating Elasticsearch actions it
issues.  Every early return (missing input dir, failed ping, missing
metadata, unreadable mapping) and the refused-overwrite abort issue no
actions; a confirmed overwrite deletes the old index first; then the
index is created and each existing batch file is bulk-submitted in
order, followed by a refresh. -/
def import_index_from_files (env : ImportEnv) : List EsAction :=
  if env.input_dir_exists = false then []
  else if env.ping_ok = false then []
  else
    match env.metadata with
    | none => []
    | some md =>
      if env.mapping_ok = false then []
      else if env.index_exists ∧ py_lower env.answer ≠ "yes" then []
      else
        (if env.index_exists then [EsAction.delete_index md.index_name] else []) ++
        [EsAction.create_index md.index_name] ++
        ((List.range md.total_batches).filterMap (fun batch_num =>
          match env.batch_file batch_num with
          | none => none
          | some batch_data =>
            some (EsAction.bulk_submit md.index_name
              (batch_data.map (regenerate_doc env))))) ++
        [EsAction.refresh md.index_name]

/-- C5: when the target index already exists, an import run issues no
index-mutating action at all unless the interactive confirmation answer
lower-cases to "yes" — in particular a refused confirmation aborts with
the existing index and its documents untouched, and any delete or create
of an index during the run implies the confirmation was affirmative. -/
theorem import_overwrite_requires_confirmation (env : ImportEnv)
    (hex : env.index_exists = true) :
    (py_lower env.answer ≠ "yes" → import_index_from_files env = []) ∧
    (∀ name, EsAction.delete_index name ∈ import_index_from_files env →
      py_lower env.answer = "yes") ∧
    (∀ name, EsAction.create_index name ∈ import_index_from_files env →
      py_lower env.answer = "yes") := by
  by_cases hyes : py_lower env.answer = "yes"
  · exact ⟨fun hne => absurd hyes hne, fun _ _ => hyes, fun _ _ => hyes⟩
  · have hempty : import_index_from_files env = [] := by
      unfold import_index_from_files
      cases hdir : env.input_dir_exists with
      | false => simp
      | true =>
        cases hping : env.ping_ok with
        | false => simp
        | true =>
          cases hmd : env.metadata with
          | none => simp
          | some md =>
            cases hmap : env.mapping_ok with
            | false => simp
            | true => simp [hex, hyes]
    refine ⟨fun _ => hempty, ?_, ?_⟩
    · intro name hmem
      rw [hempty] at hmem
      exact absurd hmem (List.not_mem_nil _)
    · intro name hmem
      rw [hempty] at hmem
      exact absurd hmem (List.not_mem_nil _)

/-- Concrete import environment for the C5 witness: the target index
exists and the operator answers "no". -/
def import_env_w : ImportEnv :=
  { input_dir_exists := true
    ping_ok := true
    metadata := some { index_name := "speech_index", total_documents := 10,
                       total_batches := 1 }
    mapping_ok := true
    index_exists := true
    answer := "no"
    batch_file := fun _ => none
    regenerate_embeddings := true
    encode := fun _ => [] }

/-- Witness for C5: the refused overwrite issues no Elasticsearch
mutation. -/
theorem import_overwrite_requires_confirmation_witness :
    import_index_from_files import_env_w = [] :=
  (import_overwrite_requires_confirmation import_env_w rfl).1 (by decide)

/- ===================== retrieval engine (search / search_with_frames) ===================== -/

/-- The lexical query body built by search (lines 382-403): fuzzy match
with AUTO fuzziness, prefix length 1 and at most 50 expansions, or a plain
match query. -/
inductive KeywordQuery where
  | fuzzy_match (size : Nat) (query : String) (fuzziness : String)
      ( prefix_length : Nat) (max_expansions : Nat)
  | plain_match (size : Nat) (query : String)
deriving DecidableEq

/-- The knn query body built by search (lines 412-420). -/
structure KnnQuery where
  size : Nat
  field : String
  query_vector : List Int
  k : Nat
  num_candidates : Nat
deriving DecidableEq

/-- Elasticsearch and model oracles of the retrieval path: the hit sources
returned for a lexical query, the outcome of the knn search (error = the
exception the except branch catches), and the embedding model. -/
structure SearchEnv where
  es_keyword_hits : KeywordQuery → List Doc
  es_knn : KnnQuery → Except String (List Doc)
  encode : String → List Int

/-- The dict returned by search: Python dicts are modelled by one optional
field per possible key, none meaning the key is absent. -/
structure ResultsDict (α : Type) where
  keyword : Option (List α)
  semantic : Option (List α)
deriving DecidableEq

def build_keyword_query (query : String) (k : Nat) (use_fuzzy : Bool) : KeywordQuery :=
  if use_fuzzy then KeywordQuery.fuzzy_match k query "AUTO" 1 50
  else KeywordQuery.plain_match k query

/-- The knn query submitted for a query string (embedding field, candidate
pool of 100). -/
def build_knn_query (env : SearchEnv) (query : String) (k : Nat) : KnnQuery :=
  { size := k, field := "embedding", query_vector := env.encode query, k := k,
    num_candidates := 100 }

/-- Shallow embedding of SpeechRetrievalES.search (audiosearch_engine.py,
lines 368-429): the keyword result is always computed and stored; the
semantic key is only written when use_semantic is set, and a knn failure
is caught and stored as the empty list. -/
def es_search (use_semantic : Bool) (env : SearchEnv) (query : String) (k : Nat)
    (use_fuzzy : Bool) : ResultsDict Doc :=
  let keyword_hits := env.es_keyword_hits (build_keyword_query query k use_fuzzy)
  if use_semantic then
    match env.es_knn (build_knn_query env query k) with
    | Except.ok hits => { keyword := some keyword_hits, semantic := some hits }
    | Except.error _ => { keyword := some keyword_hits, semantic := some [] }
  else { keyword := some keyword_hits, semantic := none }

/-- A search result annotated with its keyframes (the dict after
search_with_frames adds the frames and num_frames keys). -/
structure FrDoc where
  doc : Doc
  frames : List String
  num_frames : Nat
deriving DecidableEq

/-- The fields of a result dict that list_keyframes_in_range reads. -/
def doc_entry (d : Doc) : Entry :=
  { file := d.file, start_frame := d.start_frame, end_frame := d.end_frame }

/-- The per-result annotation step of search_with_frames (lines 448-452). -/
def attach_frames (kf : KfEnv) (base_keyframe_dir : String) (r : Doc) : FrDoc :=
  let frames := list_keyframes_in_range (doc_entry r) base_keyframe_dir kf
  { doc := r, frames := frames, num_frames := frames.length }

/-- Shallow embedding of SpeechRetrievalES.search_with_frames (lines
431-454): runs search, then writes an output entry for both modes in
order, reading the missing semantic key as [] through results.get. -/
def search_with_frames (use_semantic : Bool) (env : SearchEnv) (kf : KfEnv)
    (base_keyframe_dir : String) (query : String) (k : Nat) (use_fuzzy : Bool) :
    ResultsDict FrDoc :=
  let results := es_search use_semantic env query k use_fuzzy
  { semantic := some ((results.semantic.getD []).map (attach_frames kf base_keyframe_dir))
    keyword := some ((results.keyword.getD []).map (attach_frames kf base_keyframe_dir)) }

/-- C6: with vector search enabled, a failing knn query is caught and
degrades to an empty semantic result list while the keyword result
computed for the same call is returned unchanged (it equals the lexical
oracle's hits, exactly as in the success case). -/
theorem vector_failure_preserves_lexical (env : SearchEnv) (query : String) (k : Nat)
    (use_fuzzy : Bool) (e : String)
    (herr : env.es_knn (build_knn_query env query k) = Except.error e) :
    es_search true env query k use_fuzzy =
      { keyword := some (env.es_keyword_hits (build_keyword_query query k use_fuzzy))
        semantic := some [] } := by
  unfold es_search
  rw [herr]
  rfl

/-- Search environment whose knn path always raises. -/
def knn_fail_env : SearchEnv :=
  { es_keyword_hits := fun _ => [export_doc_w]
    es_knn := fun _ => Except.error "knn failed"
    encode := fun _ => [] }

/-- Witness for C6 at a concrete failing environment. -/
theorem vector_failure_preserves_lexical_witness :
    es_search true knn_fail_env "xe" 3 false =
      { keyword := some [export_doc_w], semantic := some [] } :=
  vector_failure_preserves_lexical knn_fail_env "xe" 3 false "knn failed" rfl

/-- C10: with vector search disabled, search returns a dict holding only
the keyword key (the semantic key is absent), while search_with_frames
under the same configuration returns a dict with both keys, the semantic
list being empty and the keyword list being the annotated lexical hits. -/
theorem search_semantic_key_presence (env : SearchEnv) (kf : KfEnv)
    (base_keyframe_dir query : String) (k : Nat) (use_fuzzy : Bool) :
    (es_search false env query k use_fuzzy).semantic = none ∧
    (es_search false env query k use_fuzzy).keyword =
      some (env.es_keyword_hits (build_keyword_query query k use_fuzzy)) ∧
    (search_with_frames false env kf base_keyframe_dir query k use_fuzzy).semantic =
      some [] ∧
    (search_with_frames false env kf base_keyframe_dir query k use_fuzzy).keyword =
      some ((env.es_keyword_hits (build_keyword_query query k use_fuzzy)).map
        (attach_frames kf base_keyframe_dir)) := by
  refine ⟨rfl, rfl, ?_, ?_⟩ <;> simp [search_with_frames, es_search]
